import Mathlib

/-!
Verification of the OncoRAD evidence-grounding pipeline.

This file gives a shallow embedding of the two response-validation modules of
the repository:

* `src/oncorad/hallucination_checker.py` (namespace `Oncorad`): claim
  extraction by sentence splitting and regular-expression matching, citation
  verification, lexical factual-support scoring, hallucination detection,
  confidence aggregation and response sanitization;
* `src/oncorad_rag/validator.py` (namespace `Rag`): the LLM-auditor path,
  with its JSON verdict parsing and the empty-evidence short circuit.

Modelling conventions:

* Python strings are Lean `String`/`List Char`; modelled text operations
  (`lower`, `strip`, `split`, substring tests) use the ASCII character
  classes of the regexes involved; `str.lower` is modelled by the ASCII
  `Char.toLower`.
* Python floats are modelled as exact rationals (`ℚ`); all the scores in
  these modules are built from small decimal literals and integer divisions.
* The regular expressions of the source are hand-compiled to deterministic
  matchers; each matcher documents the pattern it implements.  The source
  patterns are backtracking-free on every input (argued in the comments at
  the corresponding matcher), so a deterministic scan is faithful.
* `list(set(xs))` in Python has an unspecified (hash-driven) order; it is
  modelled as first-occurrence deduplication.  Nothing proved below depends
  on the order of the deduplicated lists.
-/

namespace Oncorad

/-- ASCII whitespace, the characters matched by the regex class backslash-s
and used by Python `str.split` and `str.strip`. -/
def pyIsSpace (c : Char) : Bool :=
  c = ' ' || c = '\t' || c = '\n' || c = '\x0d' || c = '\x0b' || c = '\x0c'

/-- Decimal digit, the regex class backslash-d (ASCII part). -/
def pyIsDigit (c : Char) : Bool := '0' ≤ c && c ≤ '9'

/-- The regex class A-Z. -/
def isUpperAZ (c : Char) : Bool := 'A' ≤ c && c ≤ 'Z'

/-- The regex class a-z. -/
def isLowerAZ (c : Char) : Bool := 'a' ≤ c && c ≤ 'z'

/-- The regex class A-Za-z0-9. -/
def isAlnumAscii (c : Char) : Bool := isUpperAZ c || isLowerAZ c || pyIsDigit c

/-- Model of Python `str.lower` (ASCII case folding, see the header). -/
def lowerL (l : List Char) : List Char := l.map Char.toLower

/-- Model of Python `str.strip` with no argument: drop leading and trailing
whitespace. -/
def pyStripL (l : List Char) : List Char :=
  ((l.dropWhile pyIsSpace).reverse.dropWhile pyIsSpace).reverse

/-- Python substring test `pat in s`. -/
def isSub (pat : List Char) : List Char → Bool
  | [] => pat.isEmpty
  | c :: rest => pat.isPrefixOf (c :: rest) || isSub pat rest

theorem isSub_iff (pat : List Char) : ∀ s : List Char, isSub pat s = true ↔ pat <:+: s := by
  intro s
  induction s with
  | nil => simp [isSub, List.isEmpty_iff, List.infix_nil]
  | cons c rest ih =>
    simp only [isSub, Bool.or_eq_true, ih, List.isPrefixOf_iff_prefix, List.infix_cons_iff]

/-- Model of Python `str.split` with no argument: split on runs of
whitespace, discarding empty pieces.  The accumulator holds the current word
reversed. -/
def splitWsAux : List Char → List Char → List (List Char)
  | [], acc => if acc = [] then [] else [acc.reverse]
  | c :: rest, acc =>
    if pyIsSpace c then
      if acc = [] then splitWsAux rest [] else acc.reverse :: splitWsAux rest []
    else splitWsAux rest (c :: acc)

/-- Python `str.split()` on a character list. -/
def splitWsL (l : List Char) : List (List Char) := splitWsAux l []

/-- Splitting distributes over a whitespace character inserted between two
texts; this is the only fact about `splitWsAux` the monotonicity proof of the
factual-support scorer needs. -/
theorem splitWsAux_append_space (xs : List Char) :
    ∀ acc ys, splitWsAux (xs ++ ' ' :: ys) acc = splitWsAux xs acc ++ splitWsAux ys [] := by
  have hsp : pyIsSpace ' ' = true := rfl
  induction xs with
  | nil =>
    intro acc ys
    by_cases h : acc = [] <;> simp [splitWsAux, h, hsp]
  | cons c rest ih =>
    intro acc ys
    by_cases hc : pyIsSpace c = true
    · by_cases h : acc = [] <;> simp [splitWsAux, hc, h, ih]
    · simp [splitWsAux, hc, ih]

theorem splitWsL_append_space (xs ys : List Char) :
    splitWsL (xs ++ ' ' :: ys) = splitWsL xs ++ splitWsL ys :=
  splitWsAux_append_space xs [] ys

/-- Sentence splitting of `extract_claims` (line 89 of the source): Python
`re.split` with pattern: one of period, exclamation or question mark followed
by one or more whitespace characters.  The matched delimiter (terminator plus
the maximal following whitespace run) is removed.  The flag records whether
the scan is inside the whitespace run of a just-matched delimiter, which
keeps the recursion structural. -/
def splitSentAux (l : List Char) (skipping : Bool) (acc : List Char) : List (List Char) :=
  match l with
  | [] => [acc.reverse]
  | c :: rest =>
    if skipping && pyIsSpace c then splitSentAux rest true acc
    else if (c = '.' || c = '!' || c = '?') && (match rest with
        | r :: _ => pyIsSpace r
        | [] => false) then
      acc.reverse :: splitSentAux rest true []
    else
      splitSentAux rest false (c :: acc)

/-- The sentence segments of a response text. -/
def splitSentences (l : List Char) : List (List Char) := splitSentAux l false []

/-- Anchored literal match: consume `pat` from the front of `l`. -/
def matchLit (pat l : List Char) : Option (List Char) :=
  if pat.isPrefixOf l then some (l.drop pat.length) else none

/-- Model of Python `re.findall`: scan left to right, collect the group of
each leftmost non-overlapping anchored match, resume after the match.  The
guard on the remainder length makes the recursion obviously terminating; a
zero-width match (which none of the matchers below can produce) would resume
one character later, exactly as `re.findall` does. -/
def pyFindallF (fuel : ℕ) (tryM : List Char → Option (α × List Char)) :
    List Char → List α
  | [] => []
  | c :: rest =>
    match fuel with
    | 0 => []
    | fuel + 1 =>
      match tryM (c :: rest) with
      | some (a, rem) =>
        a :: pyFindallF fuel tryM (if rem.length ≤ rest.length then rem else rest)
      | none => pyFindallF fuel tryM rest

/-- `pyFindall` with adequate fuel: every recursive step shortens the
scanned list, so fuel = length + 1 can never be exhausted. -/
def pyFindall (tryM : List Char → Option (α × List Char)) (l : List Char) : List α :=
  pyFindallF (l.length + 1) tryM l

/-- Continuation of the citation matcher after group 1 (the document
reference) has been read: the source pattern continues with an optional
group, comma + whitespace + the literal Pag-with-accent + optional period +
whitespace + digits (group 2), then the closing bracket.  Group 1 cannot
contain a comma or a closing bracket, so when the optional group fails no
shorter choice of group 1 can succeed and the whole attempt fails, exactly
like the backtracking engine. -/
def citAfterDoc (doc s : List Char) : Option ((List Char × List Char) × List Char) :=
  match s with
  | ']' :: s4 => some ((doc, []), s4)
  | ',' :: s4 =>
    let s5 := s4.dropWhile pyIsSpace
    match matchLit "Pág".toList s5 with
    | none => none
    | some s6 =>
      let s7 := match s6 with
        | '.' :: t => t
        | _ => s6
      let s8 := s7.dropWhile pyIsSpace
      let digs := s8.takeWhile pyIsDigit
      match digs, s8.dropWhile pyIsDigit with
      | [], _ => none
      | _, ']' :: s10 => some ((doc, digs), s10)
      | _, _ => none
  | _ => none

/-- CITATION_PATTERN of the source (line 65), compiled without flags: literal
open bracket, literal Fuente and colon (exact case), greedy whitespace, group
1 = one or more characters other than comma and closing bracket, optional
comma + Pag + page digits (group 2), closing bracket.  The only backtracking
the engine can perform on this pattern is giving back the last whitespace
character of the greedy whitespace run when group 1 would otherwise be empty;
the second branch below implements exactly that. -/
def tryCitation (l : List Char) : Option ((List Char × List Char) × List Char) :=
  match matchLit "[Fuente:".toList l with
  | none => none
  | some s1 =>
    let wsp := s1.takeWhile pyIsSpace
    let s2 := s1.dropWhile pyIsSpace
    let doc := s2.takeWhile (fun c => !(c = ',') && !(c = ']'))
    let s3 := s2.dropWhile (fun c => !(c = ',') && !(c = ']'))
    if doc = [] then
      match wsp with
      | [] => none
      | _ => citAfterDoc [wsp.getLastD ' '] s2
    else citAfterDoc doc s3

/-- STUDY_PATTERNS 1 to 3 (lines 46-48): a literal keyword (estudio, trial or
ensayo), one or more whitespace characters, then the group: an uppercase
letter followed by one or more characters from A-Za-z0-9 or hyphen. -/
def tryWordStudy (word : List Char) (l : List Char) : Option (List Char × List Char) :=
  match matchLit word l with
  | none => none
  | some s1 =>
    let ws := s1.takeWhile pyIsSpace
    let s2 := s1.dropWhile pyIsSpace
    if ws = [] then none
    else
      match s2 with
      | [] => none
      | c :: s3 =>
        if isUpperAZ c then
          let tail := s3.takeWhile (fun d => isAlnumAscii d || d = '-')
          let s4 := s3.dropWhile (fun d => isAlnumAscii d || d = '-')
          if tail = [] then none else some (c :: tail, s4)
        else none

/-- STUDY_PATTERNS 4 (line 49): two or more uppercase letters, an optional
hyphen or whitespace character, two or more digits; the whole match is the
group.  The uppercase run is maximal and shortening it would place an
uppercase letter where the separator or a digit is required, so the
deterministic scan is faithful. -/
def tryAcro (l : List Char) : Option (List Char × List Char) :=
  let caps := l.takeWhile isUpperAZ
  let s1 := l.dropWhile isUpperAZ
  if caps.length < 2 then none
  else
    match s1 with
    | [] => none
    | c :: s2 =>
      if c = '-' || pyIsSpace c then
        let digs := s2.takeWhile pyIsDigit
        let s3 := s2.dropWhile pyIsDigit
        if digs.length < 2 then none else some (caps ++ c :: digs, s3)
      else
        let digs := (c :: s2).takeWhile pyIsDigit
        let s3 := (c :: s2).dropWhile pyIsDigit
        if digs.length < 2 then none else some (caps ++ digs, s3)

/-- The optional tail of AUTHOR_PATTERNS 1: whitespace, literal et,
whitespace, literal al, optional period.  Returns the consumed characters
(part of group 1) and the remainder. -/
def tryEtAl (l : List Char) : Option (List Char × List Char) :=
  let w1 := l.takeWhile pyIsSpace
  let s1 := l.dropWhile pyIsSpace
  if w1 = [] then none
  else
    match matchLit "et".toList s1 with
    | none => none
    | some s2 =>
      let w2 := s2.takeWhile pyIsSpace
      let s3 := s2.dropWhile pyIsSpace
      if w2 = [] then none
      else
        match matchLit "al".toList s3 with
        | none => none
        | some s4 =>
          match s4 with
          | '.' :: s5 => some (w1 ++ 'e' :: 't' :: w2 ++ ['a', 'l', '.'], s5)
          | _ => some (w1 ++ 'e' :: 't' :: w2 ++ ['a', 'l'], s4)

/-- AUTHOR_PATTERNS 1 (line 53): one of the literals segun-with-accent, por,
de (tried in order; their first characters differ so at most one can match),
whitespace, then group 1: capitalized name, optionally followed by et al. -/
def tryAuthorA (l : List Char) : Option (List Char × List Char) :=
  let kw := match matchLit "según".toList l with
    | some s => some s
    | none => match matchLit "por".toList l with
      | some s => some s
      | none => matchLit "de".toList l
  match kw with
  | none => none
  | some s1 =>
    let ws := s1.takeWhile pyIsSpace
    let s2 := s1.dropWhile pyIsSpace
    if ws = [] then none
    else
      match s2 with
      | [] => none
      | c :: s3 =>
        if isUpperAZ c then
          let low := s3.takeWhile isLowerAZ
          let s4 := s3.dropWhile isLowerAZ
          if low = [] then none
          else
            match tryEtAl s4 with
            | some (ext, s5) => some (c :: low ++ ext, s5)
            | none => some (c :: low, s4)
        else none

/-- AUTHOR_PATTERNS 2 (line 54): group 1 = capitalized name, whitespace, then
literally y col. or et al. (period required). -/
def tryAuthorB (l : List Char) : Option (List Char × List Char) :=
  match l with
  | [] => none
  | c :: s1 =>
    if isUpperAZ c then
      let low := s1.takeWhile isLowerAZ
      let s2 := s1.dropWhile isLowerAZ
      if low = [] then none
      else
        let w := s2.takeWhile pyIsSpace
        let s3 := s2.dropWhile pyIsSpace
        if w = [] then none
        else
          let yBranch :=
            match matchLit "y".toList s3 with
            | none => none
            | some s4 =>
              let w2 := s4.takeWhile pyIsSpace
              let s5 := s4.dropWhile pyIsSpace
              if w2 = [] then none
              else (matchLit "col.".toList s5).map (fun s6 => (c :: low, s6))
          match yBranch with
          | some r => some r
          | none =>
            match matchLit "et".toList s3 with
            | none => none
            | some s4 =>
              let w2 := s4.takeWhile pyIsSpace
              let s5 := s4.dropWhile pyIsSpace
              if w2 = [] then none
              else (matchLit "al.".toList s5).map (fun s6 => (c :: low, s6))
    else none

/-- The numeral subpattern shared by all STATISTIC_PATTERNS: one or more
digits with an optional period-and-digits fraction, greedy. -/
def tryNum (l : List Char) : Option (List Char × List Char) :=
  let d1 := l.takeWhile pyIsDigit
  let s1 := l.dropWhile pyIsDigit
  if d1 = [] then none
  else
    match s1 with
    | '.' :: s2 =>
      let d2 := s2.takeWhile pyIsDigit
      let s3 := s2.dropWhile pyIsDigit
      if d2 = [] then some (d1, s1) else some (d1 ++ '.' :: d2, s3)
    | _ => some (d1, s1)

/-- STATISTIC_PATTERNS 1 (line 58): numeral, whitespace, percent sign. -/
def tryPct (l : List Char) : Option (List Char × List Char) :=
  match tryNum l with
  | none => none
  | some (n, s1) =>
    match s1.dropWhile pyIsSpace with
    | '%' :: s2 => some (n, s2)
    | _ => none

/-- STATISTIC_PATTERNS 2 (line 59): literal HR, whitespace, equals or colon,
whitespace, numeral (the group). -/
def tryHR (l : List Char) : Option (List Char × List Char) :=
  match matchLit "HR".toList l with
  | none => none
  | some s1 =>
    match s1.dropWhile pyIsSpace with
    | c :: s2 =>
      if c = '=' || c = ':' then tryNum (s2.dropWhile pyIsSpace) else none
    | [] => none

/-- STATISTIC_PATTERNS 3 (line 60): numeral (the group), whitespace, then one
of the literal unit words anos-with-tilde, months, years. -/
def tryDur (l : List Char) : Option (List Char × List Char) :=
  match tryNum l with
  | none => none
  | some (n, s1) =>
    let s2 := s1.dropWhile pyIsSpace
    match matchLit "años".toList s2 with
    | some s3 => some (n, s3)
    | none =>
      match matchLit "months".toList s2 with
      | some s3 => some (n, s3)
      | none => (matchLit "years".toList s2).map (fun s3 => (n, s3))

/-- STATISTIC_PATTERNS 4 (line 61): literal p, whitespace, one of = < >,
whitespace, numeral (the group). -/
def tryPval (l : List Char) : Option (List Char × List Char) :=
  match l with
  | 'p' :: s1 =>
    match s1.dropWhile pyIsSpace with
    | c :: s2 =>
      if c = '=' || c = '<' || c = '>' then tryNum (s2.dropWhile pyIsSpace) else none
    | [] => none
  | _ => none

/-- One extracted claim, the dictionary built at lines 114-121 of the
source.  A citation is a pair (document reference, page digits), the page
being the empty string when the optional page group did not match, exactly as
`re.findall` returns it. -/
structure PyClaim where
  text : String
  citations : List (String × String)
  studies_mentioned : List String
  statistics : List String
  authors : List String
  has_citation : Bool
deriving Repr, DecidableEq

/-- First-occurrence deduplication, the model of Python `list(set(xs))` (see
the header note on set ordering). -/
def dedup (xs : List String) : List String := xs.eraseDups

/-- The claim built from one retained sentence segment (already stripped). -/
def mkClaim (s : List Char) : PyClaim :=
  let citations := (pyFindall tryCitation s).map
    (fun dp => (String.mk dp.1, String.mk dp.2))
  let studies := (pyFindall (tryWordStudy "estudio".toList) s
      ++ pyFindall (tryWordStudy "trial".toList) s
      ++ pyFindall (tryWordStudy "ensayo".toList) s
      ++ pyFindall tryAcro s).map String.mk
  let statistics := (pyFindall tryPct s ++ pyFindall tryHR s
      ++ pyFindall tryDur s ++ pyFindall tryPval s).map String.mk
  let authors := (pyFindall tryAuthorA s ++ pyFindall tryAuthorB s).map String.mk
  { text := String.mk s
    citations := citations
    studies_mentioned := dedup studies
    statistics := dedup statistics
    authors := dedup authors
    has_citation := citations.length > 0 }

/-- HallucinationChecker.extract_claims (lines 76-123): split into sentence
segments, strip each, drop segments that are empty or shorter than 10
characters, and extract the claim features of each retained segment. -/
def extract_claims (text : String) : List PyClaim :=
  (splitSentences text.toList).filterMap fun seg =>
    let s := pyStripL seg
    if s = [] || s.length < 10 then none else some (mkClaim s)

/-- One retrieved source chunk, the dictionary shape read by the checker:
`chunk.get` with a default turns missing fields into the defaults below.  The
page number is only used to build the `doc_pages` table of
`verify_citations`, which the source constructs and never reads; it is kept
here for the record. -/
structure Chunk where
  text : String := ""
  document_name : String := ""
  page_number : Option Int := none
deriving Repr, DecidableEq

/-- The lowercased names of the available documents (lines 140-149 of the
source).  The source collects them into a Python set used only for an `any`
membership scan, so a list model is equivalent. -/
def availableDocs (chunks : List Chunk) : List String :=
  chunks.filterMap fun c =>
    if c.document_name = "" then none
    else some (String.mk (lowerL c.document_name.toList))

/-- The per-citation decision of `verify_citations` (lines 161-168): strip
and lowercase the cited document reference, then look for a bidirectional
substring match against some available document name.  The parsed page
number (line 162) is computed by the source and never used. -/
def docFound (docRef : String) (docs : List String) : Bool :=
  let cited := lowerL (pyStripL docRef.toList)
  docs.any fun ad => isSub cited ad.toList || isSub ad.toList cited

/-- The formatted entry appended for each citation (lines 171-173). -/
def fmtCitation (d p : String) : String :=
  d ++ ", Pág. " ++ (if p = "" then "?" else p)

/-- HallucinationChecker.verify_citations (lines 125-175).  The nested
append loop over claims and their citations is rendered as flatMap plus an
order-preserving filter for each of the two result lists. -/
def verify_citations (claims : List PyClaim) (chunks : List Chunk) :
    List String × List String :=
  let docs := availableDocs chunks
  let occs := claims.flatMap (·.citations)
  ((occs.filter fun dp => docFound dp.1 docs).map fun dp => fmtCitation dp.1 dp.2,
   (occs.filter fun dp => !docFound dp.1 docs).map
     fun dp => fmtCitation dp.1 dp.2 ++ " (documento no encontrado)")

/-- The token set of a text as used by `check_factual_support` (lines
194-195 and 201-203): lowercase, split on whitespace, keep words longer than
3 characters, collect into a set. -/
def wordsOf (s : String) : Finset String :=
  (((splitWsL (lowerL s.toList)).map String.mk).filter fun w => 3 < w.length).toFinset

/-- The accumulator loop of `check_factual_support` (lines 197-214): track
the best score and the 200-character excerpt of the best chunk, skipping
chunks when either token set is empty, updating on strictly greater
scores. -/
def supportLoop (cw : Finset String) : List Chunk → ℚ × Option String → ℚ × Option String
  | [], acc => acc
  | ch :: rest, (best, bc) =>
    let pw := wordsOf ch.text
    if cw = ∅ ∨ pw = ∅ then supportLoop cw rest (best, bc)
    else
      let score : ℚ := ((cw ∩ pw).card : ℚ) / (cw.card : ℚ)
      if best < score then supportLoop cw rest (score, some (ch.text.take 200))
      else supportLoop cw rest (best, bc)

/-- HallucinationChecker.check_factual_support (lines 177-216).  The default
threshold 0.3 of the source is passed explicitly by the callers below. -/
def check_factual_support (claim_text : String) (chunks : List Chunk)
    (threshold : ℚ) : Bool × ℚ × Option String :=
  let cw := wordsOf claim_text
  let r := supportLoop cw chunks (0, none)
  (decide (threshold ≤ r.1), r.1, r.2)

/-- Model of Python `float` restricted to the numeral shape digits followed
by an optional period and digits, which is the exact shape of every string
the statistic patterns can capture.  Other strings are modelled as
unparseable; the `except ValueError` of the source (line 265) maps to
`none`. -/
def parseDecimal (s : String) : Option ℚ :=
  let l := s.toList
  let d1 := l.takeWhile pyIsDigit
  let r := l.dropWhile pyIsDigit
  if d1 = [] then none
  else
    let n1 : ℕ := d1.foldl (fun a c => a * 10 + (c.toNat - '0'.toNat)) 0
    match r with
    | [] => some (n1 : ℚ)
    | '.' :: r2 =>
      if r2 ≠ [] ∧ r2.all pyIsDigit then
        let n2 : ℕ := r2.foldl (fun a c => a * 10 + (c.toNat - '0'.toNat)) 0
        some ((n1 : ℚ) + (n2 : ℚ) / (10 : ℚ) ^ r2.length)
      else none
    | _ => none

/-- Model of Python `int` on a float: truncation toward zero. -/
def pyInt (q : ℚ) : ℤ := if 0 ≤ q then ⌊q⌋ else ⌈q⌉

/-- The issue list computed for one claim by
`detect_potential_hallucinations` (lines 237-266): study names and author
surnames are looked up lowercased in the corpus, and in strict mode each
statistic is looked up literally, with a percent sign, and with the ±1
integer tolerance via `str(int(value + delta))`.  On a whitespace-only
author string the source raises IndexError at `split()[0]`; the extractor
can never produce one, and the model takes the head of the empty split as
the empty word (which then fails the length guard). -/
def claimIssues (strict : Bool) (corpus : List Char) (c : PyClaim) : List String :=
  (c.studies_mentioned.filterMap fun st =>
    if isSub (lowerL st.toList) corpus then none
    else some ("Estudio '" ++ st ++ "' no encontrado en fuentes"))
  ++ (c.authors.filterMap fun a =>
    let alow := (splitWsL (lowerL a.toList)).headD []
    if !isSub alow corpus && 3 < alow.length then
      some ("Autor '" ++ a ++ "' no encontrado en fuentes")
    else none)
  ++ (if strict ∧ c.statistics ≠ [] then
      c.statistics.filterMap fun st =>
        if isSub st.toList corpus || isSub (st.toList ++ ['%']) corpus then none
        else
          match parseDecimal st with
          | none => none
          | some v =>
            if ([-1, 0, 1] : List ℚ).any
                (fun d => isSub (toString (pyInt (v + d))).toList corpus) then none
            else some ("Estadística '" ++ st ++ "' no verificada en fuentes")
    else [])

/-- One entry of the hallucination report (lines 269-273). -/
structure HallucEntry where
  claim : String
  issues : List String
  has_citation : Bool
deriving Repr, DecidableEq

/-- The search corpus of `detect_potential_hallucinations` (line 234): all
chunk texts joined with spaces and lowercased. -/
def hallucCorpus (chunks : List Chunk) : List Char :=
  lowerL (List.intercalate [' '] (chunks.map (·.text.toList)))

/-- HallucinationChecker.detect_potential_hallucinations (lines 218-275):
join all chunk texts with spaces, lowercase, compute each claim's issues and
report the claims with at least one issue. -/
def detect_potential_hallucinations (strict : Bool) (claims : List PyClaim)
    (chunks : List Chunk) : List HallucEntry :=
  claims.filterMap fun c =>
    let issues := claimIssues strict (hallucCorpus chunks) c
    if issues = [] then none
    else some { claim := c.text.take 200, issues := issues, has_citation := c.has_citation }

/-- The aggregate result of one validation run, mirroring the
ValidationResult dataclass (lines 13-22). -/
structure VResult where
  is_valid : Bool
  confidence_score : ℚ
  verified_claims : List String
  unverified_claims : List String
  potential_hallucinations : List String
  citation_errors : List String
  warnings : List String
deriving Repr, DecidableEq

/-- Whether a claim counts as verified in `validate_response` (line 320):
supported by lexical overlap at the default threshold 0.3, or carrying at
least one inline citation. -/
def claimVerified (c : PyClaim) (chunks : List Chunk) : Bool :=
  (check_factual_support c.text chunks (3/10)).1 || c.has_citation

/-- HallucinationChecker.validate_response (lines 277-364).  The loops that
append to the verified and unverified lists are rendered as order-preserving
filters; the warning appends are rendered as a concatenation of singleton
lists in the source order. -/
def validate_response (strict : Bool) (response_text : String)
    (chunks : List Chunk) : VResult :=
  let claims := extract_claims response_text
  if claims = [] then
    { is_valid := true
      confidence_score := 1/2
      verified_claims := []
      unverified_claims := []
      potential_hallucinations := []
      citation_errors := []
      warnings := ["No se pudieron extraer afirmaciones de la respuesta"] }
  else
    let invalidCitations := (verify_citations claims chunks).2
    let verified := (claims.filter fun c => claimVerified c chunks).map
      fun c => c.text.take 100
    let unverified := (claims.filter fun c => !claimVerified c chunks).map
      fun c => c.text.take 100
    let hallucinations := (detect_potential_hallucinations strict claims chunks).map
      fun h => h.claim.take 100 ++ "... - Problemas: " ++ String.intercalate ", " h.issues
    let total : ℕ := claims.length
    let hcount : ℕ := hallucinations.length
    let ccount : ℕ := invalidCitations.length
    let base : ℚ := (verified.length : ℚ) / (total : ℚ)
    let penalty : ℚ := (hcount : ℚ) * (15/100) + (ccount : ℚ) * (10/100)
    let confidence : ℚ := max 0 (min 1 (base - penalty))
    { is_valid := decide (3/5 ≤ confidence) && decide (hcount ≤ 2) && decide (ccount ≤ 1)
      confidence_score := confidence
      verified_claims := verified
      unverified_claims := unverified
      potential_hallucinations := hallucinations
      citation_errors := invalidCitations
      warnings :=
        (if 0 < hcount then
          ["Se detectaron " ++ toString hcount ++ " posibles alucinaciones"] else [])
        ++ (if 0 < ccount then
          ["Se encontraron " ++ toString ccount ++ " errores de cita"] else [])
        ++ (if (total : ℚ) * (3/10) < (unverified.length : ℚ) then
          ["Más del 30% de las afirmaciones no tienen soporte verificable"] else []) }

def pyReplaceF (fuel : ℕ) (pat rep : List Char) : List Char → List Char
  | [] => []
  | c :: rest =>
    match fuel with
    | 0 => c :: rest
    | fuel + 1 =>
      if pat.isPrefixOf (c :: rest) ∧ pat ≠ [] then
        rep ++ pyReplaceF fuel pat rep ((c :: rest).drop pat.length)
      else c :: pyReplaceF fuel pat rep rest

/-- Model of Python `str.replace` (all non-overlapping occurrences, left to
right).  With an empty pattern Python inserts the replacement at every
position, including both ends; with a nonempty pattern every step of
`pyReplaceF` shortens the scanned list, so fuel = length + 1 can never be
exhausted. -/
def pyReplace (s pat rep : List Char) : List Char :=
  if pat = [] then rep ++ s.flatMap (fun c => c :: rep)
  else pyReplaceF (s.length + 1) pat rep s

/-- Python `s.split(pat)[0]`: the text before the first occurrence of the
separator (the whole string when the separator does not occur). -/
def beforeSep (pat : List Char) (s : List Char) : List Char :=
  match s with
  | [] => []
  | c :: rest =>
    if pat.isPrefixOf (c :: rest) then []
    else c :: beforeSep pat rest

/-- ResponseSanitizer.sanitize (lines 420-474), with the checker's strict
flag inlined as the first argument.  The per-hallucination edit loops of the
annotate and remove modes are folds over the formatted hallucination
entries. -/
def sanitize (strict : Bool) (response_text : String) (chunks : List Chunk)
    (mode : String) : String × VResult :=
  let validation := validate_response strict response_text chunks
  if validation.is_valid = true ∧ validation.potential_hallucinations = [] then
    (response_text, validation)
  else
    let sanitized :=
      if mode = "flag" then
        if validation.potential_hallucinations ≠ [] then
          "\n⚠️ ADVERTENCIA: Esta respuesta contiene "
            ++ toString validation.potential_hallucinations.length
            ++ " afirmaciones que no pudieron ser completamente verificadas contra las fuentes.\n\n"
            ++ response_text
        else response_text
      else if mode = "annotate" then
        validation.potential_hallucinations.foldl
          (fun acc h =>
            let ct := beforeSep "...".toList h.toList
            if isSub ct acc.toList then
              String.mk (pyReplace acc.toList ct (ct ++ " [⚠️ NO VERIFICADO]".toList))
            else acc)
          response_text
      else if mode = "remove" then
        validation.potential_hallucinations.foldl
          (fun acc h =>
            let ct := beforeSep "...".toList h.toList
            if isSub ct acc.toList then
              String.mk (pyReplace acc.toList (ct ++ ['.'])
                "[Contenido eliminado por falta de verificación].".toList)
            else acc)
          response_text
      else response_text
    (sanitized, validation)

end Oncorad

namespace Rag

/-- The opening curly bracket (written by code point to keep brackets out of
the literals). -/
def lbrace : Char := Char.ofNat 123

/-- The closing curly bracket. -/
def rbrace : Char := Char.ofNat 125

/-- A JSON value as produced by Python `json.loads`.  Numbers are exact
rationals (see the header); objects keep their members in source order and
lookups take the last binding of a key, matching Python dict construction
from duplicate keys. -/
inductive JVal where
  | null : JVal
  | bool : Bool → JVal
  | num : ℚ → JVal
  | str : String → JVal
  | arr : List JVal → JVal
  | obj : List (String × JVal) → JVal
deriving Repr

/-- JSON whitespace accepted between tokens by `json.loads`. -/
def jWs (c : Char) : Bool := c = ' ' || c = '\t' || c = '\n' || c = '\x0d'

/-- Hexadecimal digit value. -/
def hexVal (c : Char) : Option ℕ :=
  if '0' ≤ c ∧ c ≤ '9' then some (c.toNat - '0'.toNat)
  else if 'a' ≤ c ∧ c ≤ 'f' then some (c.toNat - 'a'.toNat + 10)
  else if 'A' ≤ c ∧ c ≤ 'F' then some (c.toNat - 'A'.toNat + 10)
  else none

/-- Parse the body of a JSON string literal (the opening quote already
consumed): plain characters up to the closing quote, backslash escapes, and
4-digit unicode escapes.  Control characters are rejected as in strict-mode
`json.loads`; an escaped code point outside the valid scalar range is
modelled as the null character. -/
def jStringF (fuel : ℕ) : List Char → List Char → Option (String × List Char)
  | [], _ => none
  | c :: rest, acc =>
    match fuel with
    | 0 => none
    | fuel + 1 =>
      if c = '"' then some (String.mk acc.reverse, rest)
      else if c = '\\' then
        match rest with
        | [] => none
        | e :: rest2 =>
          if e = '"' then jStringF fuel rest2 ('"' :: acc)
          else if e = '\\' then jStringF fuel rest2 ('\\' :: acc)
          else if e = '/' then jStringF fuel rest2 ('/' :: acc)
          else if e = 'b' then jStringF fuel rest2 ('\x08' :: acc)
          else if e = 'f' then jStringF fuel rest2 ('\x0c' :: acc)
          else if e = 'n' then jStringF fuel rest2 ('\n' :: acc)
          else if e = 'r' then jStringF fuel rest2 ('\x0d' :: acc)
          else if e = 't' then jStringF fuel rest2 ('\t' :: acc)
          else if e = 'u' then
            match rest2 with
            | h1 :: h2 :: h3 :: h4 :: rest3 =>
              match hexVal h1, hexVal h2, hexVal h3, hexVal h4 with
              | some a, some b, some c3, some d =>
                jStringF fuel rest3 (Char.ofNat (((a * 16 + b) * 16 + c3) * 16 + d) :: acc)
              | _, _, _, _ => none
            | _ => none
          else none
      else if c.toNat < 32 then none
      else jStringF fuel rest (c :: acc)

/-- `jStringF` with adequate fuel: every step consumes at least one
character, so fuel = length + 1 can never be exhausted. -/
def jString (l : List Char) : Option (String × List Char) :=
  jStringF (l.length + 1) l []

/-- Parse a JSON number: optional minus, integer part (a single zero or a
nonzero digit followed by digits), optional fraction, optional exponent. -/
def jNumber (l : List Char) : Option (ℚ × List Char) :=
  let (neg, l1) := match l with
    | '-' :: t => (true, t)
    | _ => (false, l)
  let d1 := l1.takeWhile Oncorad.pyIsDigit
  let r1 := l1.dropWhile Oncorad.pyIsDigit
  if d1 = [] then none
  else if d1.length > 1 ∧ d1.headD '0' = '0' then none
  else
    let intPart : ℕ := d1.foldl (fun a c => a * 10 + (c.toNat - '0'.toNat)) 0
    let fracRes : Option (ℚ × List Char) := match r1 with
      | '.' :: t =>
        let d2 := t.takeWhile Oncorad.pyIsDigit
        let r := t.dropWhile Oncorad.pyIsDigit
        if d2 = [] then none
        else some ((d2.foldl (fun a c => a * 10 + (c.toNat - '0'.toNat)) 0 : ℚ)
              / (10 : ℚ) ^ d2.length, r)
      | _ => some (0, r1)
    match fracRes with
    | none => none
    | some (frac, r2) =>
      let base : ℚ := (intPart : ℚ) + frac
      let expRes : Option (ℤ × List Char) := match r2 with
        | 'e' :: t | 'E' :: t =>
          let (eneg, t1) : Bool × List Char := match t with
            | '-' :: u => (true, u)
            | '+' :: u => (false, u)
            | _ => (false, t)
          let d3 := t1.takeWhile Oncorad.pyIsDigit
          let r := t1.dropWhile Oncorad.pyIsDigit
          if d3 = [] then none
          else
            let e : ℕ := d3.foldl (fun a c => a * 10 + (c.toNat - '0'.toNat)) 0
            some (if eneg then -(e : ℤ) else (e : ℤ), r)
        | _ => some (0, r2)
      match expRes with
      | none => none
      | some (expVal, r3) =>
        let q := base * (10 : ℚ) ^ expVal
        some (if neg then -q else q, r3)

mutual

/-- Parse one JSON value (leading whitespace allowed); fuel bounds the
recursion depth, and every recursive call follows the consumption of at
least one character, so fuel = input length + 2 never runs out on an input
`json.loads` would accept. -/
def jParse (fuel : ℕ) (l : List Char) : Option (JVal × List Char) :=
  match fuel with
  | 0 => none
  | fuel + 1 =>
    match l.dropWhile jWs with
    | [] => none
    | c :: rest =>
      if c = lbrace then jMembers fuel (rest.dropWhile jWs) true []
      else if c = '[' then jItems fuel (rest.dropWhile jWs) true []
      else if c = '"' then (jString rest).map fun sr => (JVal.str sr.1, sr.2)
      else if c = 't' then (Oncorad.matchLit "rue".toList rest).map fun r => (JVal.bool true, r)
      else if c = 'f' then (Oncorad.matchLit "alse".toList rest).map fun r => (JVal.bool false, r)
      else if c = 'n' then (Oncorad.matchLit "ull".toList rest).map fun r => (JVal.null, r)
      else (jNumber (c :: rest)).map fun qr => (JVal.num qr.1, qr.2)

/-- Parse the members of an object after the opening bracket; `first` is
true when no member has been read yet (so a closing bracket is allowed
immediately). -/
def jMembers (fuel : ℕ) (l : List Char) (first : Bool)
    (acc : List (String × JVal)) : Option (JVal × List Char) :=
  match fuel with
  | 0 => none
  | fuel + 1 =>
    match l with
    | [] => none
    | c :: rest =>
      if c = rbrace ∧ first then some (JVal.obj acc.reverse, rest)
      else
        match (if c = '"' then jString rest else none) with
        | none => none
        | some (key, r1) =>
          match r1.dropWhile jWs with
          | ':' :: r2 =>
            match jParse fuel r2 with
            | none => none
            | some (v, r3) =>
              match r3.dropWhile jWs with
              | ',' :: r4 => jMembers fuel (r4.dropWhile jWs) false ((key, v) :: acc)
              | d :: r4 =>
                if d = rbrace then some (JVal.obj ((key, v) :: acc).reverse, r4)
                else none
              | [] => none
          | _ => none

/-- Parse the items of an array after the opening bracket. -/
def jItems (fuel : ℕ) (l : List Char) (first : Bool)
    (acc : List JVal) : Option (JVal × List Char) :=
  match fuel with
  | 0 => none
  | fuel + 1 =>
    match l with
    | [] => none
    | ']' :: rest =>
      if first then some (JVal.arr acc.reverse, rest)
      else
        match jParse fuel l with
        | none => none
        | some (v, r1) => jItemsTail fuel v r1 acc
    | _ =>
      match jParse fuel l with
      | none => none
      | some (v, r1) => jItemsTail fuel v r1 acc

/-- Continue an array after one item has been parsed. -/
def jItemsTail (fuel : ℕ) (v : JVal) (l : List Char)
    (acc : List JVal) : Option (JVal × List Char) :=
  match fuel with
  | 0 => none
  | fuel + 1 =>
    match l.dropWhile jWs with
    | ',' :: r2 => jItems fuel r2 false (v :: acc)
    | ']' :: r2 => some (JVal.arr (v :: acc).reverse, r2)
    | _ => none

end

/-- Python `json.loads` on a whole string: parse one value and require only
whitespace after it.  The non-standard NaN and Infinity literals accepted by
Python are outside this model (they are not representable in `ℚ`); none of
the theorems below touch them. -/
def jsonLoads (s : String) : Option JVal :=
  match jParse (s.length + 2) s.toList with
  | some (v, rest) => if rest.dropWhile jWs = [] then some v else none
  | none => none

/-- Dictionary lookup with Python semantics for duplicate JSON keys: the
last binding wins. -/
def jGet (kvs : List (String × JVal)) (k : String) : Option JVal :=
  (kvs.reverse.find? fun p => p.1 = k).map (·.2)

end Rag

namespace Rag

/-- The ValidationStatus enumeration of the validator (lines 22-27). -/
inductive VStatus where
  | valid : VStatus
  | partially_valid : VStatus
  | invalid : VStatus
  | insufficient_evidence : VStatus
deriving Repr, DecidableEq

/-- The enum constructor `ValidationStatus(s)`: the status whose value is
`s`, or `none` (a ValueError in the source) for an unknown value. -/
def statusOfString (s : String) : Option VStatus :=
  if s = "valid" then some .valid
  else if s = "partially_valid" then some .partially_valid
  else if s = "invalid" then some .invalid
  else if s = "insufficient_evidence" then some .insufficient_evidence
  else none

/-- One source node as consumed by the validator (query_engine.py, lines
84-91). -/
structure SourceNode where
  text : String
  source_file : String
  page_number : Int
  guideline_version : String
  cancer_type : String
  similarity_score : ℚ
deriving Repr

/-- The query response consumed by the validator (query_engine.py, lines
94-110).  The clinical case is never examined by the validator and is kept
as its serialized form. -/
structure QueryResponse where
  response : String
  source_nodes : List SourceNode
  clinical_case : String
  is_validated : Bool := false
  validation_notes : Option String := none
deriving Repr

/-- The ValidationResult dataclass of the validator (lines 30-48).  The
claim lists and the reasoning are kept as the JSON values Python would store
in them (the source performs no type check on them); direct constructions by
the validator use string lists and plain strings wrapped as JSON values. -/
structure AuditResult where
  status : VStatus
  confidence_score : ℚ
  grounded_claims : JVal
  ungrounded_claims : JVal
  corrected_response : Option JVal := none
  validation_reasoning : JVal := JVal.str ""
deriving Repr

/-- The span grabbed by the regex at line 146 of the source: from the first
opening curly bracket to the last closing curly bracket, provided the
closing one comes after the opening one (otherwise no match, from any start
position). -/
def extractSpan (r : String) : Option String :=
  let l := r.toList
  let l2 := l.dropWhile (fun c => !(c = lbrace))
  match l2 with
  | [] => none
  | _ :: _ =>
    let rev := l2.reverse
    let rev2 := rev.dropWhile (fun c => !(c = rbrace))
    match rev2 with
    | [] => none
    | _ :: _ => some (String.mk rev2.reverse)

/-- Model of Python `float` applied to a string: optional surrounding
whitespace, optional sign, digits with an optional fraction part (possibly
with an empty side, as in 1. or .5), optional exponent.  The inf and nan
spellings accepted by Python are outside the model (see `jsonLoads`). -/
def pyFloatOfString (s : String) : Option ℚ :=
  let l := (s.toList.dropWhile Oncorad.pyIsSpace).reverse.dropWhile Oncorad.pyIsSpace |>.reverse
  let (neg, l1) : Bool × List Char := match l with
    | '-' :: t => (true, t)
    | '+' :: t => (false, t)
    | _ => (false, l)
  let d1 := l1.takeWhile Oncorad.pyIsDigit
  let r1 := l1.dropWhile Oncorad.pyIsDigit
  let mantissa : Option (ℚ × List Char) := match r1 with
    | '.' :: t =>
      let d2 := t.takeWhile Oncorad.pyIsDigit
      let r2 := t.dropWhile Oncorad.pyIsDigit
      if d1 = [] ∧ d2 = [] then none
      else some ((d1.foldl (fun a c => a * 10 + (c.toNat - '0'.toNat)) 0 : ℚ)
        + (d2.foldl (fun a c => a * 10 + (c.toNat - '0'.toNat)) 0 : ℚ) / (10 : ℚ) ^ d2.length, r2)
    | _ =>
      if d1 = [] then none
      else some ((d1.foldl (fun a c => a * 10 + (c.toNat - '0'.toNat)) 0 : ℚ), r1)
  match mantissa with
  | none => none
  | some (m, r2) =>
    let expRes : Option (ℤ × List Char) := match r2 with
      | 'e' :: t | 'E' :: t =>
        let (eneg, t1) : Bool × List Char := match t with
          | '-' :: u => (true, u)
          | '+' :: u => (false, u)
          | _ => (false, t)
        let d3 := t1.takeWhile Oncorad.pyIsDigit
        let r3 := t1.dropWhile Oncorad.pyIsDigit
        if d3 = [] then none
        else some ((if eneg then -(d3.foldl (fun a c => a * 10 + (c.toNat - '0'.toNat)) 0 : ℤ)
          else (d3.foldl (fun a c => a * 10 + (c.toNat - '0'.toNat)) 0 : ℤ)), r3)
      | _ => some (0, r2)
    match expRes with
    | none => none
    | some (e, r3) =>
      if r3 = [] then some ((if neg then -m else m) * (10 : ℚ) ^ e) else none

/-- Python `float` applied to a JSON value, as at line 158 of the source:
numbers and booleans convert, strings are parsed (a ValueError when they do
not parse), null and containers raise TypeError. -/
def pyFloatJ : JVal → Except String ℚ
  | .num q => .ok q
  | .bool b => .ok (if b then 1 else 0)
  | .str s =>
    match pyFloatOfString s with
    | some q => .ok q
    | none => .error "ValueError"
  | .null => .error "TypeError"
  | .arr _ => .error "TypeError"
  | .obj _ => .error "TypeError"

/-- The fallback verdict built at lines 168-174 of the source when the audit
reply cannot be parsed. -/
def fallbackVerdict : AuditResult :=
  { status := .invalid
    confidence_score := 0
    grounded_claims := .arr []
    ungrounded_claims := .arr [.str "Error al parsear la validación"]
    corrected_response := none
    validation_reasoning := .str "No se pudo parsear la respuesta del validador" }

/-- ResponseValidator._parse_validation_response (lines 132-174).  The
`except` clause of the source catches JSONDecodeError, KeyError and
TypeError; a ValueError raised by `float` on a non-numeric string (line 158)
is not caught and propagates, modelled as the error branch.  The inner
`except ValueError` around the status construction (lines 151-154) maps
unknown and non-string status values to invalid. -/
def parseValidationResponse (response_text : String) : Except String AuditResult :=
  match extractSpan response_text with
  | none => .ok fallbackVerdict
  | some span =>
    match jsonLoads span with
    | none => .ok fallbackVerdict
    | some (.obj kvs) =>
      let status : VStatus := match jGet kvs "status" with
        | some (.str st) => (statusOfString st).getD .invalid
        | some _ => .invalid
        | none => .invalid
      match pyFloatJ ((jGet kvs "confidence_score").getD (.num 0)) with
      | .error "TypeError" => .ok fallbackVerdict
      | .error e => .error e
      | .ok q =>
        .ok { status := status
              confidence_score := q
              grounded_claims := (jGet kvs "grounded_claims").getD (.arr [])
              ungrounded_claims := (jGet kvs "ungrounded_claims").getD (.arr [])
              corrected_response := jGet kvs "corrected_response"
              validation_reasoning := (jGet kvs "reasoning").getD (.str "") }
    | some _ => .error "AttributeError"

/-- ResponseValidator._format_source_texts (lines 110-130). -/
def formatSourceTexts (nodes : List SourceNode) : String :=
  String.intercalate "\n\n" <|
    (List.enumFrom 1 nodes).map fun ni =>
      "[FUENTE " ++ toString ni.1 ++ "]\n"
        ++ "Archivo: " ++ ni.2.source_file ++ "\n"
        ++ "Página: " ++ toString ni.2.page_number ++ "\n"
        ++ "Versión: " ++ ni.2.guideline_version ++ "\n"
        ++ "Texto:\n" ++ ni.2.text ++ "\n"
        ++ String.mk (List.replicate 40 '─')

/-- The VALIDATION_PROMPT template (lines 59-86) with the two placeholders
substituted, as built at lines 199-202.  Literal curly brackets of the JSON
skeleton are written by code point. -/
def validationPrompt (source_texts response : String) : String :=
  "Eres un auditor de información médica. Tu tarea es verificar si una respuesta está COMPLETAMENTE respaldada por los textos fuente proporcionados.\n\nTEXTOS FUENTE (estos son los únicos datos válidos):\n"
  ++ source_texts
  ++ "\n\nRESPUESTA A VERIFICAR:\n"
  ++ response
  ++ "\n\nINSTRUCCIONES DE VERIFICACIÓN:\n1. Identifica CADA afirmación factual en la respuesta.\n2. Para cada afirmación, busca evidencia EXACTA en los textos fuente.\n3. Marca como \"RESPALDADA\" solo si hay coincidencia textual clara.\n4. Marca como \"NO RESPALDADA\" si la información no aparece en las fuentes.\n\nRESPONDE EN EL SIGUIENTE FORMATO JSON:\n\x7b\n    \"status\": \"valid\" | \"partially_valid\" | \"invalid\" | \"insufficient_evidence\",\n    \"confidence_score\": 0.0-1.0,\n    \"grounded_claims\": [\"afirmación 1\", \"afirmación 2\"],\n    \"ungrounded_claims\": [\"afirmación no respaldada 1\"],\n    \"reasoning\": \"Explicación del análisis\",\n    \"corrected_response\": \"Solo si status != valid, proporciona una versión corregida que SOLO incluya información de las fuentes\"\n\x7d\n\nIMPORTANTE:\n- Si encuentras información en la respuesta que NO está en las fuentes, el status NO puede ser \"valid\".\n- Las citas de página DEBEN coincidir con los metadatos de las fuentes.\n- Sé estricto: es mejor decir \"información insuficiente\" que validar información dudosa."

/-- ResponseValidator.validate (lines 176-210), instrumented with a log of
the prompts sent to the external text-generation service: the second
component lists one entry per `llm.complete` call, so an empty log witnesses
that the external service was not invoked.  The console logging of the
source has no observable effect on the result and is omitted. -/
def validate (llm : String → String) (qr : QueryResponse) :
    (Except String AuditResult) × List String :=
  match qr.source_nodes with
  | [] =>
    (.ok { status := .insufficient_evidence
           confidence_score := 0
           grounded_claims := .arr []
           ungrounded_claims := .arr []
           corrected_response := none
           validation_reasoning :=
             .str "No hay fuentes disponibles para validar la respuesta." }, [])
  | _ :: _ =>
    let prompt := validationPrompt (formatSourceTexts qr.source_nodes) qr.response
    (parseValidationResponse (llm prompt), [prompt])

end Rag

/-!
The claims.  Each theorem below settles one claim of the specification
against the embedding above.
-/

section Claims

open Oncorad Rag

/-- Claim C8: for every query response whose source-passage list is empty,
the LLM-auditor validate returns a verdict with status insufficient_evidence
and confidence score 0 without invoking the external text-generation
service; the empty call log in the conclusion witnesses that the oracle was
never applied, for every oracle. -/
theorem validate_empty_sources (llm : String → String) (qr : QueryResponse)
    (h : qr.source_nodes = []) :
    Rag.validate llm qr =
      (.ok { status := .insufficient_evidence
             confidence_score := 0
             grounded_claims := .arr []
             ungrounded_claims := .arr []
             corrected_response := none
             validation_reasoning :=
               .str "No hay fuentes disponibles para validar la respuesta." }, []) := by
  unfold Rag.validate
  rw [h]

/-- Witness for C8 at a concrete query response. -/
theorem validate_empty_sources_inst :
    Rag.validate (fun p => p) { response := "answer", source_nodes := [], clinical_case := "c" } =
      (.ok { status := .insufficient_evidence
             confidence_score := 0
             grounded_claims := .arr []
             ungrounded_claims := .arr []
             corrected_response := none
             validation_reasoning :=
               .str "No hay fuentes disponibles para validar la respuesta." }, []) :=
  validate_empty_sources (fun p => p)
    { response := "answer", source_nodes := [], clinical_case := "c" } rfl

/-- Claim C6, counterexample: the citation pattern is compiled without
re.IGNORECASE, so a marker whose label is written in lower case is not
recorded, while the same marker with the exact Fuente casing is.  This
refutes the claimed case-insensitivity of the label. -/
theorem citation_lowercase_label_cex :
    (extract_claims "He said this [fuente: doc.pdf] here.").map (·.citations) = [[]]
    ∧ (extract_claims "He said this [Fuente: doc.pdf] here.").map (·.citations)
        = [[("doc.pdf", "")]] := by
  exact ⟨by decide, by decide⟩

/-- Claim C6, amended: inline citation-marker extraction is case-sensitive
on the label.  The citation matcher succeeds only on text that begins with
the exact characters open-bracket F u e n t e colon, and it fails on every
text whose label is spelled fuente or FUENTE. -/
theorem citation_label_case_sensitive :
    (∀ l g r, tryCitation l = some (g, r) → "[Fuente:".toList <+: l)
    ∧ (∀ l : List Char, ("[fuente:".toList <+: l ∨ "[FUENTE:".toList <+: l) →
        tryCitation l = none) := by
  constructor
  · intro l g r h
    unfold tryCitation at h
    rcases hm : matchLit "[Fuente:".toList l with _ | s1
    · rw [hm] at h; exact absurd h (by simp)
    · unfold matchLit at hm
      split at hm
      · next hp => exact List.isPrefixOf_iff_prefix.mp hp
      · exact absurd hm (by simp)
  · intro l h
    rcases h with ⟨t, rfl⟩ | ⟨t, rfl⟩ <;> rfl

/-- Witness for the amended claim C6 at concrete inputs. -/
theorem citation_label_case_sensitive_inst :
    tryCitation "[fuente: doc.pdf]".toList = none
    ∧ tryCitation "[FUENTE: doc.pdf, Pág. 3]".toList = none :=
  ⟨citation_label_case_sensitive.2 _ (Or.inl (by decide)),
   citation_label_case_sensitive.2 _ (Or.inr (by decide))⟩

/-- Claim C10: whenever validation finds zero potential hallucinations,
sanitize returns the answer text unchanged in every mode, including modes
other than the three documented ones, and in particular even when the result
is not valid because of citation errors or low confidence alone. -/
theorem sanitize_no_halluc_unchanged (strict : Bool) (text : String)
    (chunks : List Chunk) (mode : String)
    (h : (validate_response strict text chunks).potential_hallucinations = []) :
    (sanitize strict text chunks mode).1 = text := by
  simp only [sanitize, h]
  split_ifs <;> simp_all

/-- Witness for C10: an answer with no flaggable entities sanitizes to
itself in remove mode (and the hypothesis evaluates to an empty list). -/
theorem sanitize_no_halluc_unchanged_inst :
    (sanitize true "Hello world data sample." [] "remove").1
      = "Hello world data sample." :=
  sanitize_no_halluc_unchanged true "Hello world data sample." [] "remove" (by decide)

/-- The claims retained by extraction are exactly the stripped sentence
segments of length at least 10. -/
theorem extract_claims_text_map (t : String) :
    (extract_claims t).map (·.text)
      = ((splitSentences t.toList).map fun seg => String.mk (pyStripL seg)).filter
          (fun s => decide (10 ≤ s.length)) := by
  have hf : ∀ seg : List Char,
      (let s := pyStripL seg
       if s = [] || s.length < 10 then none else some (mkClaim s))
        = if 10 ≤ (pyStripL seg).length then some (mkClaim (pyStripL seg)) else none := by
    intro seg
    by_cases h10 : 10 ≤ (pyStripL seg).length
    · have h1 : ¬ pyStripL seg = [] := by
        intro he; rw [he] at h10; simp at h10
      have h2 : ¬ (pyStripL seg).length < 10 := by omega
      simp [h1, h2, h10]
    · have h2 : (pyStripL seg).length < 10 := by omega
      by_cases h1 : pyStripL seg = [] <;> simp [h1, h2, h10]
  unfold extract_claims
  simp only [hf]
  generalize splitSentences t.toList = l
  induction l with
  | nil => rfl
  | cons seg rest ih =>
    by_cases h10 : 10 ≤ (pyStripL seg).length
    · have hlen : 10 ≤ (String.mk (pyStripL seg)).length := h10
      simp [h10, ih, hlen]
      rfl
    · have hlen : ¬ 10 ≤ (String.mk (pyStripL seg)).length := h10
      simp [h10, ih, hlen]

/-- Whitespace characters are not sentence terminators. -/
theorem pyIsSpace_not_term (c : Char) (hc : pyIsSpace c = true) :
    (c = '.' || c = '!' || c = '?') = false := by
  simp only [pyIsSpace, Bool.or_eq_true, decide_eq_true_eq] at hc
  rcases hc with ((((h | h) | h) | h) | h) | h <;> subst h <;> rfl

/-- On all-whitespace input the sentence splitter returns the single segment
made of the accumulator and the rest of the input. -/
theorem splitSentAux_all_space (l : List Char) :
    ∀ acc, l.all pyIsSpace = true → splitSentAux l false acc = [acc.reverse ++ l] := by
  induction l with
  | nil => intro acc _; simp [splitSentAux]
  | cons c rest ih =>
    intro acc hall
    simp only [List.all_cons, Bool.and_eq_true] at hall
    show splitSentAux (c :: rest) false acc = _
    simp only [splitSentAux, Bool.false_and, Bool.false_eq_true, if_false,
      pyIsSpace_not_term c hall.1]
    rw [ih (c :: acc) hall.2]
    simp

/-- On all-whitespace input stripping yields the empty list. -/
theorem pyStripL_all_space (l : List Char) (hall : l.all pyIsSpace = true) :
    pyStripL l = [] := by
  have h1 : l.dropWhile pyIsSpace = [] := by
    rw [List.dropWhile_eq_nil_iff]
    intro x hx
    exact List.all_eq_true.mp hall x hx
  simp [pyStripL, h1]

/-- Claim C5: extraction never returns a claim shorter than the 10-character
minimum, the texts of the returned claims are exactly the stripped sentence
segments of length at least 10 in source order, and whitespace-only input
(including the empty string) yields no claims. -/
theorem extract_claims_minlen_order (t : String) :
    ((extract_claims t).map (·.text)
        = ((splitSentences t.toList).map fun seg => String.mk (pyStripL seg)).filter
            (fun s => decide (10 ≤ s.length)))
    ∧ (∀ c ∈ extract_claims t, 10 ≤ c.text.length)
    ∧ (t.toList.all pyIsSpace = true → extract_claims t = []) := by
  refine ⟨extract_claims_text_map _, ?_, ?_⟩
  · intro c hc
    have hmem : c.text ∈ (extract_claims t).map (·.text) := List.mem_map_of_mem _ hc
    rw [extract_claims_text_map] at hmem
    have := (List.mem_filter.mp hmem).2
    simpa using this
  · intro hall
    have hstrip : pyStripL t.toList = [] := pyStripL_all_space _ hall
    unfold extract_claims splitSentences
    rw [splitSentAux_all_space _ [] hall]
    simp [hstrip]
    intro hne
    exact absurd hstrip hne

/-- Witness for C5 at concrete inputs: whitespace-only input yields no
claims, and a two-sentence text yields the two stripped sentences in source
order. -/
theorem extract_claims_minlen_order_inst :
    extract_claims "  \n " = []
    ∧ (extract_claims "The treatment is effective. Survival rates are high.").map (·.text)
        = ["The treatment is effective", "Survival rates are high."] := by
  constructor
  · exact (extract_claims_minlen_order "  \n ").2.2 (by decide)
  · rw [(extract_claims_minlen_order "The treatment is effective. Survival rates are high.").1]
    decide

/-- The score the specification ascribes to a single passage: the share of
the claim's tokens (lowercased whitespace tokens longer than 3 characters)
that occur among the passage's tokens, and zero when either token set is
empty.  This is the specification-side definition compared against
`check_factual_support`. -/
def specPassageScore (t : String) (ch : Chunk) : ℚ :=
  if wordsOf t = ∅ ∨ wordsOf ch.text = ∅ then 0
  else ((wordsOf t ∩ wordsOf ch.text).card : ℚ) / ((wordsOf t).card : ℚ)

theorem specPassageScore_nonneg (t : String) (ch : Chunk) :
    0 ≤ specPassageScore t ch := by
  unfold specPassageScore
  split_ifs
  · exact le_refl 0
  · positivity

/-- Unfolding equation for one step of the support loop. -/
theorem supportLoop_cons (cw : Finset String) (ch : Chunk) (rest : List Chunk)
    (b : ℚ) (bc : Option String) :
    supportLoop cw (ch :: rest) (b, bc)
      = if cw = ∅ ∨ wordsOf ch.text = ∅ then supportLoop cw rest (b, bc)
        else if b < ((cw ∩ wordsOf ch.text).card : ℚ) / (cw.card : ℚ) then
          supportLoop cw rest
            (((cw ∩ wordsOf ch.text).card : ℚ) / (cw.card : ℚ), some (ch.text.take 200))
        else supportLoop cw rest (b, bc) := rfl

theorem foldr_max_nonneg (xs : List ℚ) : 0 ≤ xs.foldr max 0 := by
  induction xs with
  | nil => exact le_refl 0
  | cons x rest ih => exact le_trans ih (le_max_right x _)

/-- The best-score accumulator of `check_factual_support` computes the
maximum of its starting value and the per-passage scores. -/
theorem supportLoop_fst (t : String) :
    ∀ (chunks : List Chunk) (b : ℚ) (bc : Option String), 0 ≤ b →
      (supportLoop (wordsOf t) chunks (b, bc)).1
        = max b ((chunks.map (specPassageScore t)).foldr max 0) := by
  intro chunks
  induction chunks with
  | nil =>
    intro b bc hb
    simp [supportLoop, max_eq_left hb]
  | cons ch rest ih =>
    intro b bc hb
    rw [supportLoop_cons]
    by_cases hskip : wordsOf t = ∅ ∨ wordsOf ch.text = ∅
    · have hspec : specPassageScore t ch = 0 := by
        unfold specPassageScore
        rw [if_pos hskip]
      rw [if_pos hskip, ih b bc hb, List.map_cons, List.foldr_cons, hspec,
        max_eq_right (foldr_max_nonneg _)]
    · have hspec : specPassageScore t ch
          = ((wordsOf t ∩ wordsOf ch.text).card : ℚ) / ((wordsOf t).card : ℚ) := by
        unfold specPassageScore
        rw [if_neg hskip]
      have hscore : (0:ℚ) ≤ ((wordsOf t ∩ wordsOf ch.text).card : ℚ) / ((wordsOf t).card : ℚ) := by
        positivity
      rw [if_neg hskip]
      by_cases hlt : b < ((wordsOf t ∩ wordsOf ch.text).card : ℚ) / ((wordsOf t).card : ℚ)
      · rw [if_pos hlt, ih _ _ hscore, List.map_cons, List.foldr_cons, hspec]
        exact (max_eq_right (le_trans (le_of_lt hlt) (le_max_left _ _))).symm
      · rw [if_neg hlt, ih b bc hb, List.map_cons, List.foldr_cons, hspec]
        rw [← max_assoc, max_eq_left (le_of_not_lt hlt)]

/-- The tokens of a text survive extending the text with a space and more
text. -/
theorem wordsOf_subset_append (t extra : String) :
    wordsOf t ⊆ wordsOf (t ++ " " ++ extra) := by
  intro w hw
  unfold wordsOf at hw ⊢
  rw [List.mem_toFinset, List.mem_filter] at hw ⊢
  refine ⟨?_, hw.2⟩
  rcases List.mem_map.mp hw.1 with ⟨seg, hseg, rfl⟩
  apply List.mem_map_of_mem
  have hdata : (t ++ " " ++ extra).toList = t.toList ++ ' ' :: extra.toList := by
    show (t ++ " " ++ extra).data = t.data ++ ' ' :: extra.data
    rw [String.data_append, String.data_append,
      show (" " : String).data = [' '] by decide,
      List.append_assoc, List.singleton_append]
  rw [hdata, show lowerL (t.toList ++ ' ' :: extra.toList)
      = lowerL t.toList ++ ' ' :: lowerL extra.toList by
    unfold lowerL; rw [List.map_append]; rfl]
  rw [splitWsL_append_space]
  exact List.mem_append_left _ hseg

/-- Extending a passage can only raise its per-passage score. -/
theorem specPassageScore_mono (t : String) (ch : Chunk) (extra : String) :
    specPassageScore t ch
      ≤ specPassageScore t { ch with text := ch.text ++ " " ++ extra } := by
  by_cases hskip : wordsOf t = ∅ ∨ wordsOf ch.text = ∅
  · calc specPassageScore t ch = 0 := by unfold specPassageScore; rw [if_pos hskip]
      _ ≤ _ := specPassageScore_nonneg t _
  · push_neg at hskip
    have hsub : wordsOf ch.text ⊆ wordsOf (ch.text ++ " " ++ extra) :=
      wordsOf_subset_append ch.text extra
    have hne2 : wordsOf (ch.text ++ " " ++ extra) ≠ ∅ := by
      intro he
      exact hskip.2 (Finset.subset_empty.mp (he ▸ hsub))
    have hcardpos : (0:ℚ) < ((wordsOf t).card : ℚ) := by
      have := Finset.card_pos.mpr (Finset.nonempty_iff_ne_empty.mpr hskip.1)
      exact_mod_cast this
    have hnum : ((wordsOf t ∩ wordsOf ch.text).card : ℚ)
        ≤ ((wordsOf t ∩ wordsOf (ch.text ++ " " ++ extra)).card : ℚ) := by
      exact_mod_cast Finset.card_le_card (Finset.inter_subset_inter (le_refl _) hsub)
    unfold specPassageScore
    rw [if_neg (by push_neg; exact ⟨hskip.1, hskip.2⟩), if_neg (by push_neg; exact ⟨hskip.1, hne2⟩)]
    exact (div_le_div_iff_of_pos_right hcardpos).mpr hnum

/-- Replacing one element of a list by a pointwise larger one cannot lower
the folded maximum. -/
theorem foldr_max_set_mono (x y : ℚ) (hxy : x ≤ y) :
    ∀ (A B : List ℚ), (A ++ x :: B).foldr max 0 ≤ (A ++ y :: B).foldr max 0 := by
  intro A B
  induction A with
  | nil => exact max_le_max hxy (le_refl _)
  | cons a rest ih => exact max_le_max (le_refl a) ih

/-- Claim C4: for every claim text, passage list and threshold, the score
computed by check_factual_support is the maximum over the passages of the
specification's per-passage score (the share of the claim's lowercased
tokens longer than 3 characters found among the passage's tokens, zero when
either token set is empty); and the maximum is monotone under extending any
one passage's text with further words, so in particular appending words that
overlap the claim's token set cannot decrease it. -/
theorem check_factual_support_formula_monotone (t : String) (chunks : List Chunk) (θ : ℚ) :
    ((check_factual_support t chunks θ).2.1
        = (chunks.map (specPassageScore t)).foldr max 0)
    ∧ ∀ (pre post : List Chunk) (ch : Chunk) (extra : String),
        (check_factual_support t (pre ++ ch :: post) θ).2.1
          ≤ (check_factual_support t
              (pre ++ { ch with text := ch.text ++ " " ++ extra } :: post) θ).2.1 := by
  have hform : ∀ cs : List Chunk,
      (check_factual_support t cs θ).2.1 = (cs.map (specPassageScore t)).foldr max 0 := by
    intro cs
    show (supportLoop (wordsOf t) cs (0, none)).1 = _
    rw [supportLoop_fst t cs 0 none (le_refl 0), max_eq_right (foldr_max_nonneg _)]
  refine ⟨hform chunks, ?_⟩
  intro pre post ch extra
  rw [hform, hform, List.map_append, List.map_append, List.map_cons, List.map_cons]
  exact foldr_max_set_mono _ _ (specPassageScore_mono t ch extra) _ _

/-- In any list, boolean emptiness agrees with the positive-length test used
for has_citation. -/
theorem length_pos_eq_not_isEmpty {α : Type} (l : List α) :
    decide (0 < l.length) = !l.isEmpty := by
  cases l <;> simp

/-- Every extracted claim records has_citation exactly as citation-list
non-emptiness. -/
theorem extract_claims_has_citation (t : String) :
    ∀ c ∈ extract_claims t, c.has_citation = !c.citations.isEmpty := by
  intro c hc
  unfold extract_claims at hc
  rcases List.mem_filterMap.mp hc with ⟨seg, _, heq⟩
  by_cases hcond : pyStripL seg = [] ∨ (pyStripL seg).length < 10
  · exfalso
    rcases hcond with h1 | h1 <;> simp [h1] at heq
  · push_neg at hcond
    have : mkClaim (pyStripL seg) = c := by
      simpa [hcond.1, hcond.2] using heq
    subst this
    exact length_pos_eq_not_isEmpty _
/-- The spec-side verification predicate of C1: the factual-support score of
the claim reaches the 0.3 threshold, or the claim carries at least one
inline citation. -/
def specVerified (c : PyClaim) (chunks : List Chunk) : Bool :=
  decide ((3:ℚ)/10 ≤ (check_factual_support c.text chunks (3/10)).2.1)
    || !c.citations.isEmpty

theorem claimVerified_eq_spec (t : String) (chunks : List Chunk) :
    ∀ c ∈ extract_claims t, claimVerified c chunks = specVerified c chunks := by
  intro c hc
  unfold claimVerified specVerified
  rw [extract_claims_has_citation t c hc]
  rfl

/-- Claim C1: on any answer with at least one extracted claim, the
confidence score equals the clamp to the unit interval of
verified/total - (hallucinations * 0.15 + citation errors * 0.10), where a
claim is verified exactly when its factual-support score reaches 0.3 or it
carries at least one inline citation. -/
theorem validate_response_confidence_formula (strict : Bool) (text : String)
    (chunks : List Chunk) (h : extract_claims text ≠ []) :
    (validate_response strict text chunks).confidence_score
      = max 0 (min 1
          ((((extract_claims text).countP fun c => specVerified c chunks : ℕ) : ℚ)
              / (((extract_claims text).length : ℕ) : ℚ)
            - (((detect_potential_hallucinations strict (extract_claims text) chunks).length : ℚ)
                  * (15/100)
                + (((verify_citations (extract_claims text) chunks).2).length : ℚ)
                  * (10/100)))) := by
  simp only [validate_response]
  rw [if_neg h]
  simp only [List.length_map]
  have hcongr : ∀ (l : List PyClaim) (p q : PyClaim → Bool), (∀ a ∈ l, p a = q a) →
      l.countP p = l.countP q := by
    intro l p q h0
    induction l with
    | nil => rfl
    | cons a rest ih =>
      rw [List.countP_cons, List.countP_cons, h0 a (by simp),
        ih (fun b hb => h0 b (List.mem_cons_of_mem a hb))]
  have hcnt : (List.filter (fun c => claimVerified c chunks) (extract_claims text)).length
      = (extract_claims text).countP (fun c => specVerified c chunks) := by
    rw [(List.countP_eq_length_filter _ _).symm]
    exact hcongr _ _ _ (claimVerified_eq_spec text chunks)
  rw [hcnt]

/-- Witness for C1 at a concrete answer and empty passage list. -/
theorem validate_response_confidence_formula_inst :
    extract_claims "Hello world data." ≠ []
    ∧ (validate_response true "Hello world data." []).confidence_score
        = max 0 (min 1
            ((((extract_claims "Hello world data.").countP
                  fun c => specVerified c [] : ℕ) : ℚ)
                / ((((extract_claims "Hello world data.").length : ℕ)) : ℚ)
              - (((detect_potential_hallucinations true
                    (extract_claims "Hello world data.") []).length : ℚ) * (15/100)
                  + (((verify_citations (extract_claims "Hello world data.") []).2).length : ℚ)
                    * (10/100)))) :=
  ⟨by decide, validate_response_confidence_formula true "Hello world data." [] (by decide)⟩

/-- Claim C2: with at least one extracted claim, is_valid holds exactly when
the confidence score reaches 0.6 and there are at most 2 potential
hallucinations and at most 1 citation error; in particular more than 2
hallucinations or more than 1 citation error forces is_valid false whatever
the confidence score is. -/
theorem validate_response_validity_thresholds (strict : Bool) (text : String)
    (chunks : List Chunk) (h : extract_claims text ≠ []) :
    ((validate_response strict text chunks).is_valid = true ↔
      ((3:ℚ)/5 ≤ (validate_response strict text chunks).confidence_score
        ∧ (detect_potential_hallucinations strict (extract_claims text) chunks).length ≤ 2
        ∧ ((verify_citations (extract_claims text) chunks).2).length ≤ 1))
    ∧ ((2 < (detect_potential_hallucinations strict (extract_claims text) chunks).length
          ∨ 1 < ((verify_citations (extract_claims text) chunks).2).length) →
        (validate_response strict text chunks).is_valid = false) := by
  have hiff : (validate_response strict text chunks).is_valid = true ↔
      ((3:ℚ)/5 ≤ (validate_response strict text chunks).confidence_score
        ∧ (detect_potential_hallucinations strict (extract_claims text) chunks).length ≤ 2
        ∧ ((verify_citations (extract_claims text) chunks).2).length ≤ 1) := by
    simp only [validate_response]
    rw [if_neg h]
    simp only [List.length_map, Bool.and_eq_true, decide_eq_true_eq]
    tauto
  refine ⟨hiff, ?_⟩
  intro hbad
  cases hv : (validate_response strict text chunks).is_valid with
  | false => rfl
  | true =>
    rcases hiff.mp hv with ⟨_, h2, h3⟩
    rcases hbad with hb | hb <;> omega

/-- Witness for C2 at a concrete answer: the iff instantiates, and with the
fabricated-statistic claim below there are no hallucination or citation
errors, so the second part is vacuous there; a second input exercises it. -/
theorem validate_response_validity_thresholds_inst :
    extract_claims "Hello world data." ≠ []
    ∧ ((validate_response true "Hello world data." []).is_valid = true ↔
        ((3:ℚ)/5 ≤ (validate_response true "Hello world data." []).confidence_score
          ∧ (detect_potential_hallucinations true
              (extract_claims "Hello world data.") []).length ≤ 2
          ∧ ((verify_citations (extract_claims "Hello world data.") []).2).length ≤ 1)) :=
  ⟨by decide,
   (validate_response_validity_thresholds true "Hello world data." [] (by decide)).1⟩

/-- The validity condition exactly as claim C3 states it: comparing
case-insensitively, the document reference as given is a substring of some
available document name or some available document name is a substring of
it.  (No whitespace stripping: the claim does not mention the strip the
source performs.) -/
def specC3Cond (cited : String) (chunks : List Chunk) : Prop :=
  ∃ ch ∈ chunks, ch.document_name ≠ "" ∧
    (lowerL cited.toList <:+: lowerL ch.document_name.toList
      ∨ lowerL ch.document_name.toList <:+: lowerL cited.toList)

/-- The validity condition the source actually implements: the same
bidirectional case-insensitive substring test, applied to the reference
after stripping surrounding whitespace. -/
def specC3CondStripped (cited : String) (chunks : List Chunk) : Prop :=
  ∃ ch ∈ chunks, ch.document_name ≠ "" ∧
    (lowerL (pyStripL cited.toList) <:+: lowerL ch.document_name.toList
      ∨ lowerL ch.document_name.toList <:+: lowerL (pyStripL cited.toList))

instance (cited : String) (chunks : List Chunk) : Decidable (specC3CondStripped cited chunks) := by
  unfold specC3CondStripped
  infer_instance

def ceC3Claim : PyClaim :=
  { text := "irrelevant"
    citations := [("a b ", "")]
    studies_mentioned := []
    statistics := []
    authors := []
    has_citation := true }

def ceC3Chunk : Chunk := { text := "", document_name := "xa b", page_number := none }

/-- Claim C3, counterexample: the reference with a trailing space (which the
extractor can produce, since group 1 of the citation pattern is greedy up to
the closing bracket) is classified VALID by verify_citations, because the
source strips it before comparing, even though the claimed unstripped
bidirectional substring condition is false. -/
theorem verify_citations_substring_claim_cex :
    (verify_citations [ceC3Claim] [ceC3Chunk]).1 = ["a b , Pág. ?"]
    ∧ (verify_citations [ceC3Claim] [ceC3Chunk]).2 = []
    ∧ ¬ specC3Cond "a b " [ceC3Chunk] := by
  refine ⟨by decide, by decide, ?_⟩
  intro hcond
  rcases hcond with ⟨ch, hch, _, hsub⟩
  rcases List.mem_singleton.mp hch with rfl
  revert hsub
  decide

theorem bool_eq_decide (b : Bool) (p : Prop) [Decidable p] (h : b = true ↔ p) :
    b = decide p := by
  cases hb : b
  · rw [hb] at h
    simp only [Bool.false_eq_true, false_iff] at h
    simp [h]
  · rw [hb] at h
    simp [h.mp rfl]

/-- The per-citation decision of the source agrees with the stripped
bidirectional substring condition over the raw chunk list. -/
theorem docFound_iff_spec (d : String) (chunks : List Chunk) :
    docFound d (availableDocs chunks) = true ↔ specC3CondStripped d chunks := by
  unfold docFound availableDocs specC3CondStripped
  rw [List.any_eq_true]
  constructor
  · rintro ⟨ad, had, hsub⟩
    rcases List.mem_filterMap.mp had with ⟨ch, hch, hf⟩
    by_cases hne : ch.document_name = ""
    · rw [if_pos hne] at hf
      exact absurd hf (by simp)
    · rw [if_neg hne] at hf
      refine ⟨ch, hch, hne, ?_⟩
      have had2 : ad.toList = lowerL ch.document_name.toList := by
        rw [show ad = String.mk (lowerL ch.document_name.toList) by
          exact (Option.some.injEq _ _).mp hf |>.symm]
        rfl
      rw [had2] at hsub
      simpa [isSub_iff] using hsub
  · rintro ⟨ch, hch, hne, hsub⟩
    refine ⟨String.mk (lowerL ch.document_name.toList), ?_, ?_⟩
    · exact List.mem_filterMap.mpr ⟨ch, hch, by rw [if_neg hne]⟩
    · simpa [isSub_iff] using hsub

/-- Claim C3, amended: for every list of claims and source passages, a
citation occurrence is classified valid by verify_citations exactly when its
document reference, STRIPPED of surrounding whitespace and compared
case-insensitively, is a substring of some available document name or
conversely; the page number plays no role in the decision (the condition
does not mention it), and the two result lists enumerate the satisfying and
failing occurrences in order with their formatted entries. -/
theorem verify_citations_classification (claims : List PyClaim) (chunks : List Chunk) :
    (verify_citations claims chunks).1
        = ((claims.flatMap (·.citations)).filter
            (fun dp => decide (specC3CondStripped dp.1 chunks))).map
              (fun dp => fmtCitation dp.1 dp.2)
    ∧ (verify_citations claims chunks).2
        = ((claims.flatMap (·.citations)).filter
            (fun dp => !decide (specC3CondStripped dp.1 chunks))).map
              (fun dp => fmtCitation dp.1 dp.2 ++ " (documento no encontrado)") := by
  have hpt : ∀ dp : String × String,
      docFound dp.1 (availableDocs chunks) = decide (specC3CondStripped dp.1 chunks) :=
    fun dp => bool_eq_decide _ _ (docFound_iff_spec dp.1 chunks)
  unfold verify_citations
  constructor
  · exact congrArg _ (List.filter_congr fun dp _ => hpt dp)
  · exact congrArg _ (List.filter_congr fun dp _ => by rw [hpt dp])

/-- Two formatted issue strings with different literal heads differ; index 3
separates Estudio (u) from Estadística (a). -/
theorem study_ne_stat_issue (a b : String) :
    ("Estudio '" ++ a ++ "' no encontrado en fuentes")
      ≠ ("Estadística '" ++ b ++ "' no verificada en fuentes") := by
  intro h
  have h2 := congrArg (fun s => s.data[3]?) h
  simp only [String.data_append] at h2
  simp at h2

/-- Index 0 separates Autor (A) from Estadística (E). -/
theorem author_ne_stat_issue (a b : String) :
    ("Autor '" ++ a ++ "' no encontrado en fuentes")
      ≠ ("Estadística '" ++ b ++ "' no verificada en fuentes") := by
  intro h
  have h2 := congrArg (fun s => s.data[0]?) h
  simp only [String.data_append] at h2
  simp at h2

/-- The statistic issue string determines the statistic. -/
theorem stat_issue_inj (a b : String)
    (h : ("Estadística '" ++ a ++ "' no verificada en fuentes")
      = ("Estadística '" ++ b ++ "' no verificada en fuentes")) : a = b := by
  have h2 := congrArg String.data h
  simp only [String.data_append] at h2
  have h3 := List.append_cancel_right h2
  have h4 := List.append_cancel_left h3
  cases a with
  | mk da =>
    cases b with
    | mk db =>
      simp only at h4
      rw [show da = db from h4]

/-- Every value produced by the numeral parser is nonnegative. -/
theorem parseDecimal_nonneg (s : String) (v : ℚ) (h : parseDecimal s = some v) :
    0 ≤ v := by
  simp only [parseDecimal] at h
  by_cases h1 : List.takeWhile pyIsDigit s.toList = []
  · rw [if_pos h1] at h
    exact absurd h (by simp)
  · rw [if_neg h1] at h
    revert h
    split
    · intro h
      rw [Option.some.injEq] at h
      rw [← h]
      positivity
    · split_ifs
      · intro h
        rw [Option.some.injEq] at h
        rw [← h]
        positivity
      · intro h
        exact absurd h (by simp)
    · intro h
      exact absurd h (by simp)

/-- For nonnegative values the truncation-based tolerance scan of the source
finds a match exactly when one of floor-1, floor, floor+1 occurs in the
corpus; for values below 1 the two scans check different integer sets
(0,0,1 against -1,0,1) but agree as predicates because a corpus containing
the rendering of -1 also contains the rendering of 1. -/
theorem tolerance_equiv (v : ℚ) (hv : 0 ≤ v) (corpus : List Char) :
    (([-1, 0, 1] : List ℚ).any
        (fun d => isSub (toString (pyInt (v + d))).toList corpus) = true)
      ↔ ∃ k ∈ ([⌊v⌋ - 1, ⌊v⌋, ⌊v⌋ + 1] : List ℤ),
          (toString k).toList <:+: corpus := by
  have hLHS : (([-1, 0, 1] : List ℚ).any
        (fun d => isSub (toString (pyInt (v + d))).toList corpus) = true)
      ↔ ((toString (pyInt (v + (-1)))).toList <:+: corpus
          ∨ (toString (pyInt (v + 0))).toList <:+: corpus
          ∨ (toString (pyInt (v + 1))).toList <:+: corpus) := by
    simp [isSub_iff]
  have hRHS : (∃ k ∈ ([⌊v⌋ - 1, ⌊v⌋, ⌊v⌋ + 1] : List ℤ),
        (toString k).toList <:+: corpus)
      ↔ ((toString (⌊v⌋ - 1)).toList <:+: corpus
          ∨ (toString ⌊v⌋).toList <:+: corpus
          ∨ (toString (⌊v⌋ + 1)).toList <:+: corpus) := by
    simp
  rw [hLHS, hRHS]
  have e0 : pyInt (v + 0) = ⌊v⌋ := by
    rw [add_zero]
    unfold pyInt
    rw [if_pos hv]
  have e1 : pyInt (v + 1) = ⌊v⌋ + 1 := by
    unfold pyInt
    rw [if_pos (by linarith)]
    rw [show (1:ℚ) = ((1:ℤ):ℚ) by norm_num, Int.floor_add_int]
  rw [e0, e1]
  by_cases hv1 : 1 ≤ v
  · have em1 : pyInt (v + (-1)) = ⌊v⌋ - 1 := by
      unfold pyInt
      rw [if_pos (by linarith)]
      rw [show (-1:ℚ) = ((-1:ℤ):ℚ) by norm_num, Int.floor_add_int]
      ring
    rw [em1]
  · have hceil : ⌈v⌉ ≤ 1 := Int.ceil_le.mpr (by push_cast; linarith)
    by_cases hv0 : v = 0
    · have em1 : pyInt (v + (-1)) = ⌊v⌋ - 1 := by
        subst hv0
        rw [zero_add]
        unfold pyInt
        rw [if_neg (by norm_num)]
        rw [show ((-1):ℚ) = ((-1:ℤ):ℚ) by norm_num, Int.ceil_intCast]
        simp
      rw [em1]
    · have hvpos : 0 < v := lt_of_le_of_ne hv (Ne.symm hv0)
      have hpos : (0:ℤ) < ⌈v⌉ := Int.lt_ceil.mpr (by push_cast; exact hvpos)
      have hceil1 : ⌈v⌉ = 1 := by omega
      have hfl : ⌊v⌋ = 0 := by
        rw [Int.floor_eq_zero_iff]
        exact ⟨hv, not_le.mp hv1⟩
      have em1 : pyInt (v + (-1)) = 0 := by
        unfold pyInt
        rw [if_neg (by intro hcon; linarith)]
        rw [show (-1:ℚ) = ((-1:ℤ):ℚ) by norm_num, Int.ceil_add_int, hceil1]
        ring
      rw [em1, hfl]
      norm_num
      intro h
      have hsub : (toString (1:ℤ)).toList <:+: (toString (-1:ℤ)).toList := by decide
      exact Or.inr (hsub.trans h)

/-- The issues reported by detection are the per-claim issue lists in claim
order (claims with no issues contribute nothing either way). -/
theorem detect_issues_join (strict : Bool) (claims : List PyClaim) (chunks : List Chunk) :
    (detect_potential_hallucinations strict claims chunks).flatMap (·.issues)
      = claims.flatMap (fun c => claimIssues strict (hallucCorpus chunks) c) := by
  unfold detect_potential_hallucinations
  induction claims with
  | nil => rfl
  | cons c rest ih =>
    simp only [List.filterMap_cons, List.flatMap_cons]
    by_cases hi : claimIssues strict (hallucCorpus chunks) c = []
    · simp only [hi, if_pos]
      simpa [hi] using ih
    · simp only [hi, if_neg, List.flatMap_cons]
      simpa [hi] using congrArg (fun l => claimIssues strict (hallucCorpus chunks) c ++ l) ih

/-- Claim C7: in strict mode, for every extracted statistic of every claim,
detection flags the statistic issue exactly when the literal numeral and the
numeral followed by a percent sign are both absent from the lowercased
joined corpus AND the statistic parses to a value none of whose floor-1,
floor, floor+1 renderings occurs in the corpus; unparseable statistic
strings are never flagged (the existential fails for them). -/
theorem halluc_statistic_rule (claims : List PyClaim) (chunks : List Chunk)
    (c : PyClaim) (stat : String) (hc : c ∈ claims) (hs : stat ∈ c.statistics) :
    (("Estadística '" ++ stat ++ "' no verificada en fuentes")
        ∈ (detect_potential_hallucinations true claims chunks).flatMap (·.issues))
      ↔ (¬ stat.toList <:+: hallucCorpus chunks
          ∧ ¬ (stat.toList ++ ['%']) <:+: hallucCorpus chunks
          ∧ ∃ v, parseDecimal stat = some v
              ∧ ∀ k ∈ ([⌊v⌋ - 1, ⌊v⌋, ⌊v⌋ + 1] : List ℤ),
                  ¬ (toString k).toList <:+: hallucCorpus chunks) := by
  rw [detect_issues_join]
  constructor
  · intro hmem
    rcases List.mem_flatMap.mp hmem with ⟨c2, _, hin⟩
    unfold claimIssues at hin
    rcases List.mem_append.mp hin with hin12 | hinC
    · rcases List.mem_append.mp hin12 with hinA | hinB
      · exfalso
        rcases List.mem_filterMap.mp hinA with ⟨st, _, hf⟩
        by_cases hsub : isSub (lowerL st.toList) (hallucCorpus chunks) = true
        · rw [if_pos hsub] at hf
          exact absurd hf (by simp)
        · rw [if_neg hsub] at hf
          rw [Option.some.injEq] at hf
          exact study_ne_stat_issue st stat hf
      · exfalso
        rcases List.mem_filterMap.mp hinB with ⟨a, _, hf⟩
        by_cases hga : (!isSub ((splitWsL (lowerL a.toList)).headD []) (hallucCorpus chunks)
            && decide (3 < ((splitWsL (lowerL a.toList)).headD []).length)) = true
        · rw [if_pos hga] at hf
          rw [Option.some.injEq] at hf
          exact author_ne_stat_issue a stat hf
        · rw [if_neg hga] at hf
          exact absurd hf (by simp)
    · by_cases hguard : (true : Bool) = true ∧ c2.statistics ≠ []
      · rw [if_pos hguard] at hinC
        rcases List.mem_filterMap.mp hinC with ⟨st, _, hf⟩
        by_cases hsub : (isSub st.toList (hallucCorpus chunks)
            || isSub (st.toList ++ ['%']) (hallucCorpus chunks)) = true
        · rw [if_pos hsub] at hf
          exact absurd hf (by simp)
        · rw [if_neg hsub] at hf
          split at hf
          · exact absurd hf (by simp)
          · rename_i v hparse
            by_cases hany : (([-1, 0, 1] : List ℚ).any
                (fun d => isSub (toString (pyInt (v + d))).toList (hallucCorpus chunks))) = true
            · rw [if_pos hany] at hf
              exact absurd hf (by simp)
            · rw [if_neg hany] at hf
              rw [Option.some.injEq] at hf
              have hst : st = stat := stat_issue_inj st stat hf
              subst hst
              rw [Bool.or_eq_true, not_or] at hsub
              push_neg at hsub
              refine ⟨?_, ?_, v, hparse, ?_⟩
              · rw [← isSub_iff]
                exact hsub.1
              · rw [← isSub_iff]
                exact hsub.2
              · intro k hk hksub
                exact hany ((tolerance_equiv v
                  (parseDecimal_nonneg st v hparse) (hallucCorpus chunks)).mpr ⟨k, hk, hksub⟩)
      · rw [if_neg hguard] at hinC
        exact absurd hinC (by simp)
  · rintro ⟨h1, h2, v, hparse, hall⟩
    apply List.mem_flatMap.mpr
    refine ⟨c, hc, ?_⟩
    unfold claimIssues
    apply List.mem_append.mpr
    right
    have hne : c.statistics ≠ [] := by
      intro he
      rw [he] at hs
      exact absurd hs (by simp)
    rw [if_pos ⟨rfl, hne⟩]
    apply List.mem_filterMap.mpr
    refine ⟨stat, hs, ?_⟩
    have hsubF : (isSub stat.toList (hallucCorpus chunks)
        || isSub (stat.toList ++ ['%']) (hallucCorpus chunks)) = false := by
      rw [Bool.or_eq_false_iff]
      constructor
      · rw [← Bool.not_eq_true, isSub_iff]
        exact h1
      · rw [← Bool.not_eq_true, isSub_iff]
        exact h2
    rw [if_neg (by rw [hsubF]; simp)]
    simp only [hparse]
    have hany : (([-1, 0, 1] : List ℚ).any
        (fun d => isSub (toString (pyInt (v + d))).toList (hallucCorpus chunks))) = false := by
      rw [← Bool.not_eq_true]
      intro hcon
      rcases (tolerance_equiv v (parseDecimal_nonneg stat v hparse)
        (hallucCorpus chunks)).mp hcon with ⟨k, hk, hksub⟩
      exact hall k hk hksub
    rw [if_neg (by rw [hany]; simp)]

def c7wClaim : PyClaim :=
  { text := "The survival was high"
    citations := []
    studies_mentioned := []
    statistics := ["95"]
    authors := []
    has_citation := false }

def c7wChunk : Chunk :=
  { text := "supporting corpus text", document_name := "doc.pdf", page_number := none }

/-- Witness for C7: a statistic absent from the corpus (also under the ±1
tolerance) is flagged. -/
theorem halluc_statistic_rule_inst :
    ("Estadística '" ++ "95" ++ "' no verificada en fuentes")
      ∈ (detect_potential_hallucinations true [c7wClaim] [c7wChunk]).flatMap (·.issues) :=
  (halluc_statistic_rule [c7wClaim] [c7wChunk] c7wClaim "95"
      (by decide) (by decide)).mpr
    ⟨by decide, by decide, 95, by decide, by decide⟩

def ceC9Reply : String := "\x7b\"status\": \"weird\", \"confidence_score\": \"abc\"\x7d"

/-- Claim C9, counterexample: this reply parses as the expected JSON object
and its status is none of the four known values, yet
_parse_validation_response returns no verdict at all: the `float` call on
the non-numeric confidence_score string raises a ValueError that none of the
handlers catches, so neither the maximally-distrustful default nor an
invalid-status verdict is produced. -/
theorem parse_validation_claim_cex :
    parseValidationResponse ceC9Reply = .error "ValueError"
    ∧ jsonLoads ceC9Reply
        = some (.obj [("status", .str "weird"), ("confidence_score", .str "abc")])
    ∧ "weird" ∉ (["valid", "partially_valid", "invalid", "insufficient_evidence"]
        : List String) :=
  ⟨rfl, rfl, by decide⟩

theorem statusOfString_eq_none (s : String)
    (h : s ∉ (["valid", "partially_valid", "invalid", "insufficient_evidence"]
      : List String)) : statusOfString s = none := by
  unfold statusOfString
  split_ifs with h1 h2 h3 h4
  · subst h1; simp at h
  · subst h2; simp at h
  · subst h3; simp at h
  · subst h4; simp at h
  · rfl

/-- Claim C9, amended: a reply with no bracketed span, or whose span fails
JSON parsing, yields the maximally-distrustful default verdict (status
invalid, confidence 0, one synthetic ungrounded entry); a reply parsing to
an object whose status string is not one of the four known values yields a
verdict with status invalid PROVIDED its confidence_score field is not a
non-numeric string — in that remaining case the uncaught ValueError
propagates and no verdict is returned (see the counterexample). -/
theorem parse_validation_fallback_rule :
    (∀ r : String, extractSpan r = none →
        parseValidationResponse r = .ok fallbackVerdict)
    ∧ (∀ r span : String, extractSpan r = some span → jsonLoads span = none →
        parseValidationResponse r = .ok fallbackVerdict)
    ∧ (∀ (r span : String) (kvs : List (String × JVal)) (st : String),
        extractSpan r = some span → jsonLoads span = some (.obj kvs) →
        jGet kvs "status" = some (.str st) →
        st ∉ (["valid", "partially_valid", "invalid", "insufficient_evidence"]
          : List String) →
        (match jGet kvs "confidence_score" with
          | some (.str s) => pyFloatOfString s ≠ none
          | _ => True) →
        ∃ res, parseValidationResponse r = .ok res ∧ res.status = .invalid) := by
  refine ⟨?_, ?_, ?_⟩
  · intro r h
    unfold parseValidationResponse
    simp only [h]
  · intro r span h1 h2
    unfold parseValidationResponse
    simp only [h1, h2]
  · intro r span kvs st h1 h2 hst hunk hconf
    unfold parseValidationResponse
    simp only [h1, h2, hst, statusOfString_eq_none st hunk]
    rcases hcf : jGet kvs "confidence_score" with _ | j
    · simp only [hcf, Option.getD_none, pyFloatJ]
      exact ⟨_, rfl, rfl⟩
    · rcases j with _ | b | q | s | xs | kvs2
      · simp only [hcf, Option.getD_some, pyFloatJ]
        exact ⟨fallbackVerdict, rfl, rfl⟩
      · simp only [hcf, Option.getD_some, pyFloatJ]
        exact ⟨_, rfl, rfl⟩
      · simp only [hcf, Option.getD_some, pyFloatJ]
        exact ⟨_, rfl, rfl⟩
      · rw [hcf] at hconf
        rcases hq : pyFloatOfString s with _ | q
        · exact absurd hq hconf
        · simp only [hcf, Option.getD_some, pyFloatJ, hq]
          exact ⟨_, rfl, rfl⟩
      · simp only [hcf, Option.getD_some, pyFloatJ]
        exact ⟨fallbackVerdict, rfl, rfl⟩
      · simp only [hcf, Option.getD_some, pyFloatJ]
        exact ⟨fallbackVerdict, rfl, rfl⟩

/-- Witness for the amended claim C9 at concrete replies. -/
theorem parse_validation_fallback_rule_inst :
    parseValidationResponse "no json here" = .ok fallbackVerdict
    ∧ ∃ res, parseValidationResponse "\x7b\"status\": \"weird\"\x7d" = .ok res
        ∧ res.status = .invalid :=
  ⟨parse_validation_fallback_rule.1 "no json here" rfl,
   parse_validation_fallback_rule.2.2 _ _ _ "weird" rfl rfl rfl (by decide) trivial⟩

end Claims
